import Mathlib

/-!
Verification of the blobs3 access-control and blockchain-health code
(`blobs3/access.py`, `blobs3/blockchains.py`) against its specification.

The Python code is shallowly embedded: pure functions become Lean
functions, exceptions become `Except String`, Python dicts of variable
bindings become association lists with overwrite-on-insert, and the
network collaborators (web3 token contracts, block fetches, lock
acquisition outcomes) become explicit oracle parameters.
-/

namespace Blobs3

/-- `AuthorizationType` enumeration from `access.py`. -/
inductive AuthorizationType where
  | PUBLIC
  | ERC20
  | ERC721
  | ERC1155
deriving DecidableEq

/-- `AccessType` enumeration from `access.py`. -/
inductive AccessType where
  | CREATE
  | READ
  | UPDATE
deriving DecidableEq

/-- Python `Union[int, str]`, the declared type of `token_id`. -/
inductive TokenId where
  | int (n : Int)
  | str (s : String)
deriving DecidableEq

/-- `AuthorizationSpecification` model from `access.py` (post-validation
field values: `contract_address` already checksum-normalized,
`minimum_balance` already coerced to an integer by pydantic). -/
structure AuthorizationSpecification where
  blockchain : String
  authorization_type : AuthorizationType
  contract_address : Option String := none
  token_id : Option TokenId := none
  minimum_balance : Option Int := none
deriving DecidableEq

/-- `StorageAccess` model from `access.py`. -/
structure StorageAccess where
  storage_path : List String
  authorization : AuthorizationSpecification
  access : AccessType
deriving DecidableEq

/-- Python `str.startswith`, on the character lists of the strings. -/
def pyStartsWith (s pre : String) : Bool :=
  pre.data.isPrefixOf s.data

/-- One step of Python `str.split(sep)` over a character list. -/
def splitChars (sep : Char) : List Char → List (List Char)
  | [] => [[]]
  | c :: rest =>
    match splitChars sep rest with
    | [] => if c = sep then [[], []] else [[c]]
    | g :: gs => if c = sep then [] :: g :: gs else (c :: g) :: gs

/-- Python `path.split("/")`: the empty string yields `[""]` and
adjacent separators yield empty components. -/
def pySplitSlash (s : String) : List String :=
  (splitChars '/' s.data).map String.mk

/-- Decimal value of a digit run (`none` as soon as a non-digit appears). -/
def digitsVal (acc : Nat) : List Char → Option Nat
  | [] => some acc
  | c :: rest => if c.isDigit then digitsVal (acc * 10 + (c.toNat - 48)) rest else none

/-- Python `int(str)` as pydantic applies it to an `Optional[int]`
field: an optional sign followed by at least one decimal digit. -/
def pyInt? (s : String) : Option Int :=
  match s.data with
  | [] => none
  | '-' :: rest =>
    match rest with
    | [] => none
    | _ => (digitsVal 0 rest).map (fun n => -(n : Int))
  | '+' :: rest =>
    match rest with
    | [] => none
    | _ => (digitsVal 0 rest).map (fun n => (n : Int))
  | l => (digitsVal 0 l).map (fun n => (n : Int))

/-- Lowercase an ASCII letter. -/
def lowerChar (c : Char) : Char :=
  if 'A' ≤ c ∧ c ≤ 'Z' then Char.ofNat (c.toNat + 32) else c

/-- Variable bindings: a Python `Dict[str, str]` in insertion order. -/
abbrev Bindings := List (String × String)

/-- Python `dict.get`: value of the first (unique) entry with the key. -/
def dictGet? (d : Bindings) (k : String) : Option String :=
  (d.find? (fun p => p.1 == k)).map (fun p => p.2)

/-- Python `d[k] = v`: overwrite in place when the key is present,
append otherwise (insertion order is preserved). -/
def dictInsert (d : Bindings) (k v : String) : Bindings :=
  if d.any (fun p => p.1 == k) then
    d.map (fun p => if p.1 == k then (k, v) else p)
  else
    d ++ [(k, v)]

/-- The loop body of `match_paths` (`access.py` lines 112-116): walk the
registered components with index `i` into the request path; a component
starting with `var/` binds, a literal must equal `path_components[i]`.
Reading `path_components[i]` past the end is Python's `IndexError`,
embedded as `Except.error`. -/
def matchLoop (path_components : List String) :
    List String → Nat → Bindings → Except String (Bool × Bindings)
  | [], _, variable_bindings => .ok (true, variable_bindings)
  | registered_component :: rest, i, variable_bindings =>
    if pyStartsWith registered_component "var/" then
      match path_components[i]? with
      | none => .error "IndexError"
      | some v =>
        matchLoop path_components rest (i + 1)
          (dictInsert variable_bindings registered_component v)
    else
      match path_components[i]? with
      | none => .error "IndexError"
      | some v =>
        if v ≠ registered_component then .ok (false, [])
        else matchLoop path_components rest (i + 1) variable_bindings

/-- `match_paths` from `access.py`: access-type mismatch is an immediate
non-match, then the component loop runs. -/
def match_paths (access_type : AccessType) (path_components : List String)
    (storage_access : StorageAccess) : Except String (Bool × Bindings) :=
  if storage_access.access ≠ access_type then .ok (false, [])
  else matchLoop path_components storage_access.storage_path 0 []

/-- The sort applied by `load_access_list_from_string` /
`load_access_list_from_file`: Python's stable `list.sort` with
`key=len(storage_path)` (pydantic JSON parsing itself is out of scope;
this is the in-memory ordering step). -/
def load_access_list (access_list : List StorageAccess) : List StorageAccess :=
  access_list.mergeSort
    (fun a b => a.storage_path.length ≤ b.storage_path.length)

/-- `BlockchainDefinition` model from `blockchains.py` (the float
`healthy_block_interval` is embedded as a rational). -/
structure BlockchainDefinition where
  http : String
  poa : Bool
  chain_id : Int
  healthy_block_interval : ℚ
deriving DecidableEq

/-- The `Blockchain` dataclass from `blockchains.py`. The `client` and
`lock` fields are effectful collaborators: queries through the client
are modelled by the `TokenClient` oracle and lock interactions by
explicit probe inputs/outputs. -/
structure Blockchain where
  http : String
  chain_id : Int
  healthy_block_interval : ℚ
  last_block_number : Int
  last_block_timestamp : Int
  healthy : Bool
deriving DecidableEq

/-- `BlockchainManager` state: the name-keyed `blockchains` dict and the
`timers` dict (a timer is present exactly when one was constructed;
only its interval matters to the model). -/
structure BlockchainManager where
  blockchains : List (String × Blockchain)
  timers : List (String × Option ℚ)
deriving DecidableEq

/-- `BlockchainManager.get`: dict lookup by name. -/
def BlockchainManager.get (manager : BlockchainManager) (blockchain_name : String) :
    Option Blockchain :=
  (manager.blockchains.find? (fun p => p.1 == blockchain_name)).map (fun p => p.2)

/-- Oracle standing in for the web3 contract objects built inside
`AccessManager.authorization`: each query is keyed by the chain it runs
against, the (possibly substituted) contract address and its arguments,
and may fail with a transport error. -/
structure TokenClient where
  erc20BalanceOf : Blockchain → Option String → String → Except String Int
  erc721OwnerOf : Blockchain → Option String → Option TokenId → Except String String
  erc1155BalanceOf : Blockchain → Option String → String → Option TokenId → Except String Int

/-- Is a string a well-formed hexadecimal digit. -/
def isHexDigit (c : Char) : Bool :=
  c.isDigit || ('a' ≤ c && c ≤ 'f') || ('A' ≤ c && c ≤ 'F')

/-- Modelled from the spec: `Web3.toChecksumAddress` (an external web3
collaborator, not in this repository). Per §6 of the spec it
canonicalizes a well-formed address to checksummed form and fails on a
malformed address, and per §8 differing letter-casings of the same
address compare equal after normalization; the canonical case-mixed
EIP-55 recoding is therefore modelled as the (equally injective,
case-collapsing) lowercase normal form. -/
def toChecksumAddress (s : String) : Except String String :=
  if pyStartsWith s "0x" && s.length == 42 && (s.drop 2).data.all isHexDigit then
    .ok (String.mk ('0' :: 'x' :: (s.drop 2).data.map lowerChar))
  else
    .error "could not convert to checksum address"

/-- The substitution applied to `contract_address` in
`AccessManager.authorization` (lines 177-179): replaced by
`variable_bindings[contract_address]` exactly when the literal field
value is a binding key; `dict.get(None)` is `None`, so a missing field
stays missing. -/
def substituteContractAddress (variable_bindings : Bindings)
    (spec : AuthorizationSpecification) : Option String :=
  match spec.contract_address with
  | none => none
  | some contract_address =>
    match dictGet? variable_bindings contract_address with
    | some v => some v
    | none => some contract_address

/-- The substitution applied to `token_id` (lines 181-183): the
bindings dict has string keys, so an integer `token_id` is never a key
(`dict.get` with it returns `None`) and only a string `token_id` equal
to a binding key is replaced. -/
def substituteTokenId (variable_bindings : Bindings)
    (spec : AuthorizationSpecification) : Option TokenId :=
  match spec.token_id with
  | none => none
  | some (.int n) => some (.int n)
  | some (.str s) =>
    match dictGet? variable_bindings s with
    | some v => some (.str v)
    | none => some (.str s)

/-- The decision the body of the `authorization` loop takes for one
matched candidate (`access.py` lines 163-213): `PUBLIC` grants,
an absent or unhealthy chain is a non-grant (continue), otherwise the
fields are substituted (lines 175-187; `variable_bindings.get(minimum_balance)`
looks an integer or `None` up among string keys and is always `None`,
so `minimum_balance` is never substituted) and the token query decides.
Comparing a balance with a missing `minimum_balance` is Python's
`TypeError`; a transport failure in a query propagates uncaught. -/
def ruleDecision (client : TokenClient) (blockchains : BlockchainManager)
    (user_address : String) (storage_access : StorageAccess)
    (variable_bindings : Bindings) : Except String Bool :=
  if storage_access.authorization.authorization_type = AuthorizationType.PUBLIC then
    .ok true
  else
    match blockchains.get storage_access.authorization.blockchain with
    | none => .ok false
    | some blockchain =>
      if !blockchain.healthy then .ok false
      else
        let contract_address :=
          substituteContractAddress variable_bindings storage_access.authorization
        let token_id := substituteTokenId variable_bindings storage_access.authorization
        let minimum_balance := storage_access.authorization.minimum_balance
        match storage_access.authorization.authorization_type with
        | .ERC20 =>
          match client.erc20BalanceOf blockchain contract_address user_address with
          | .error e => .error e
          | .ok balance =>
            match minimum_balance with
            | none => .error "TypeError"
            | some m => .ok (decide (m ≤ balance))
        | .ERC721 =>
          match client.erc721OwnerOf blockchain contract_address token_id with
          | .error e => .error e
          | .ok owner =>
            match toChecksumAddress user_address with
            | .error e => .error e
            | .ok checksum_user => .ok (decide (owner = checksum_user))
        | .ERC1155 =>
          match client.erc1155BalanceOf blockchain contract_address user_address token_id with
          | .error e => .error e
          | .ok balance =>
            match minimum_balance with
            | none => .error "TypeError"
            | some m => .ok (decide (m ≤ balance))
        | .PUBLIC => .ok false

/-- The collection loop of `AccessManager.match`: run `match_paths` on
every stored rule in order, keeping the matches with their bindings; an
`IndexError` from any rule propagates. -/
def collectMatches (access_type : AccessType) (path_components : List String) :
    List StorageAccess → Except String (List (StorageAccess × Bindings))
  | [] => .ok []
  | storage_access :: rest => do
    let (is_match, variable_bindings) ←
      match_paths access_type path_components storage_access
    let tail ← collectMatches access_type path_components rest
    .ok (if is_match then (storage_access, variable_bindings) :: tail else tail)

/-- `AccessManager` state from `access.py`. -/
structure AccessManager where
  storage_access_list : List StorageAccess
  blockchains : BlockchainManager

/-- `AccessManager.match`: split the path on `/` and collect matching
rules in stored order. -/
def AccessManager.matchAccess (manager : AccessManager) (access_type : AccessType)
    (path : String) : Except String (List (StorageAccess × Bindings)) :=
  collectMatches access_type (pySplitSlash path) manager.storage_access_list

/-- The candidate loop of `AccessManager.authorization` (lines 162-215):
first candidate whose decision grants is returned; a non-grant falls
through to the next candidate; exhaustion returns `None`. -/
def authorizationLoop (client : TokenClient) (blockchains : BlockchainManager)
    (user_address : String) :
    List (StorageAccess × Bindings) → Except String (Option StorageAccess)
  | [] => .ok none
  | (storage_access, variable_bindings) :: rest => do
    let granted ← ruleDecision client blockchains user_address storage_access variable_bindings
    if granted then .ok (some storage_access)
    else authorizationLoop client blockchains user_address rest

/-- `AccessManager.authorization` from `access.py`. -/
def AccessManager.authorization (manager : AccessManager) (client : TokenClient)
    (user_address : String) (access_type : AccessType) (path : String) :
    Except String (Option StorageAccess) := do
  let possible_authorizations ← manager.matchAccess access_type path
  authorizationLoop client manager.blockchains user_address possible_authorizations

/-- Outcome of one `apply_healthcheck` call: the mutated chain state,
whether the probe still holds the lock when it returns (the `try/finally`
releases an acquired lock on both the normal and the exceptional exit,
and a failed acquisition never held it), and the exception it raises,
if any. -/
structure ProbeResult where
  chain : Blockchain
  lockHeldOnExit : Bool
  exc : Option String
deriving DecidableEq

/-- `apply_healthcheck` from `blockchains.py` (lines 70-92). The two
environment inputs are whether `lock.acquire(True, timeout=1.0)`
succeeded and the outcome of `client.eth.get_block("latest")` (its
number and timestamp, or a transport error). An acquisition timeout
sets `healthy=False` and returns; a successful fetch compares the new
block against the last-seen fields and always advances them; a fetch
error leaves the state untouched, releases the lock in the `finally`,
and propagates. -/
def apply_healthcheck (acquired : Bool) (fetch : Except String (Int × Int))
    (blockchain : Blockchain) : ProbeResult :=
  if !acquired then
    { chain := { blockchain with healthy := false }, lockHeldOnExit := false, exc := none }
  else
    match fetch with
    | .error e => { chain := blockchain, lockHeldOnExit := false, exc := some e }
    | .ok (number, timestamp) =>
      let healthy : Bool :=
        if number ≤ blockchain.last_block_number ∨
            timestamp ≤ blockchain.last_block_timestamp then false else true
      { chain := { blockchain with
          healthy := healthy,
          last_block_number := number,
          last_block_timestamp := timestamp },
        lockHeldOnExit := false, exc := none }

/-- One chain's initial state as built by `BlockchainManager.__init__`
(lines 146-161): `assume_healthy` is `healthy_block_interval <= 0` and
seeds the `healthy` flag; last-seen fields start at zero. -/
def initBlockchain (definition : BlockchainDefinition) : Blockchain :=
  { http := definition.http,
    chain_id := definition.chain_id,
    healthy_block_interval := definition.healthy_block_interval,
    last_block_number := 0,
    last_block_timestamp := 0,
    healthy := decide (definition.healthy_block_interval ≤ 0) }

/-- `BlockchainManager.__init__` (lines 143-169): build every chain's
state, and register a repeating timer exactly for the chains that are
not assumed healthy. -/
def BlockchainManager.ofDefinitions
    (blockchain_definitions : List (String × BlockchainDefinition)) : BlockchainManager :=
  { blockchains := blockchain_definitions.map (fun p => (p.1, initBlockchain p.2)),
    timers := blockchain_definitions.map (fun p =>
      (p.1, if p.2.healthy_block_interval ≤ 0 then none
            else some p.2.healthy_block_interval)) }

/-- The synchronous probe pass of `start_healthchecks` (lines 172-173):
`apply_healthcheck` runs on every chain in order — including the
assumed-healthy ones — with the per-chain environment `env`; an
exception from one probe propagates and aborts the pass. -/
def startProbe (env : String → Bool × Except String (Int × Int)) :
    List (String × Blockchain) → Except String (List (String × Blockchain))
  | [] => .ok []
  | (name, blockchain) :: rest =>
    match (apply_healthcheck (env name).1 (env name).2 blockchain).exc with
    | some e => .error e
    | none =>
      match startProbe env rest with
      | .error e => .error e
      | .ok rest' =>
        .ok ((name,
          (apply_healthcheck (env name).1 (env name).2 blockchain).chain) :: rest')

/-- `start_healthchecks` from `blockchains.py`: the initial synchronous
probe of every chain (the subsequent `timer.start()` calls only launch
the periodic tasks and change no chain state). -/
def start_healthchecks (env : String → Bool × Except String (Int × Int))
    (manager : BlockchainManager) : Except String BlockchainManager := do
  let blockchains ← startProbe env manager.blockchains
  .ok { manager with blockchains := blockchains }

/-- The per-chain effect of `stop_healthchecks`: a chain whose timers
entry holds a timer is marked unhealthy, any other chain is untouched. -/
def stopMark (timers : List (String × Option ℚ)) (p : String × Blockchain) :
    String × Blockchain :=
  match (timers.find? (fun q => q.1 == p.1)).map (fun q => q.2) with
  | some (some _) => (p.1, { p.2 with healthy := false })
  | _ => p

/-- `stop_healthchecks` from `blockchains.py` (lines 178-182): every
chain that has a timer is marked unhealthy; chains without one are left
untouched. -/
def stop_healthchecks (manager : BlockchainManager) : BlockchainManager :=
  { manager with
    blockchains := manager.blockchains.map (stopMark manager.timers) }

/-- Raw (pre-validation) field values of an `AuthorizationSpecification`
as they arrive from JSON: `minimum_balance` may be a JSON integer or a
string that pydantic will coerce with `int(...)`. -/
structure RawSpec where
  blockchain : String
  authorization_type : AuthorizationType
  contract_address : Option String := none
  token_id : Option TokenId := none
  minimum_balance : Option (Sum Int String) := none
deriving DecidableEq

/-- Pydantic's coercion of a value into the `Optional[int]` field
`minimum_balance`: integers pass, strings must parse as an integer. -/
def coerceInt : Sum Int String → Except String Int
  | .inl n => .ok n
  | .inr s =>
    match pyInt? s with
    | some n => .ok n
    | none => .error "value is not a valid integer"

/-- Pydantic v1 coercion into the `Union[int, str]` field `token_id`:
the union tries `int` first, so an int-parsable string (the repo's own
test loads `token_id: "1"` as the integer 1) becomes an integer, and
any other string — a `var/<name>` token in particular — stays a
string. -/
def coerceTokenId : TokenId → TokenId
  | .int n => .int n
  | .str s =>
    match pyInt? s with
    | some n => .int n
    | none => .str s

/-- Second half of spec validation: coerce `minimum_balance` into the
declared `Optional[int]` field and assemble the validated record, with
`token_id` run through the `Union[int, str]` coercion. -/
def validateSpecBalance (raw : RawSpec) (contract_address : Option String) :
    Except String AuthorizationSpecification :=
  match raw.minimum_balance with
  | none =>
    .ok { blockchain := raw.blockchain,
          authorization_type := raw.authorization_type,
          contract_address := contract_address,
          token_id := raw.token_id.map coerceTokenId,
          minimum_balance := none }
  | some x =>
    match coerceInt x with
    | .error e => .error e
    | .ok n =>
      .ok { blockchain := raw.blockchain,
            authorization_type := raw.authorization_type,
            contract_address := contract_address,
            token_id := raw.token_id.map coerceTokenId,
            minimum_balance := some n }

/-- Validation run when an `AuthorizationSpecification` is constructed
(pydantic): the `contract_address` validator from `access.py` lines
41-49 replaces the field with `Web3.toChecksumAddress(v)` and rejects
anything that cannot be converted, the declared field type
`Optional[int]` coerces `minimum_balance`, and the declared
`Optional[Union[int, str]]` type coerces `token_id` (int-parsable
strings become integers, all other strings are kept). -/
def validateSpec (raw : RawSpec) : Except String AuthorizationSpecification :=
  match raw.contract_address with
  | none => validateSpecBalance raw none
  | some v =>
    match toChecksumAddress v with
    | .ok c => validateSpecBalance raw (some c)
    | .error _ =>
      .error "contract_address could not be converted to checksum address"

/-- Specification-side description (for comparison with `matchLoop`):
the literal positions of the registered path, read from index `i`
onward, all agree with the request path. Follows the spec's words
"if literal, require exact equality or fail". -/
def literalsMatchSpec (path_components : List String) :
    List String → Nat → Bool
  | [], _ => true
  | comp :: rest, i =>
    if pyStartsWith comp "var/" then literalsMatchSpec path_components rest (i + 1)
    else
      match path_components[i]? with
      | none => false
      | some c => c == comp && literalsMatchSpec path_components rest (i + 1)

/-- Specification-side description of the final binding of a key: the
request-path component at the last index (from `i` onward) where the
pattern carries exactly that `var/...` token; later occurrences
overwrite earlier ones, as a dict assignment does. -/
def lastBindingSpec (path_components : List String) :
    List String → Nat → String → Option String
  | [], _, _ => none
  | comp :: rest, i, k =>
    match lastBindingSpec path_components rest (i + 1) k with
    | some v => some v
    | none =>
      if comp == k && pyStartsWith comp "var/" then path_components[i]?
      else none

/-- A PUBLIC authorization condition on chain `wyrm`, used by concrete
matching examples (the condition is irrelevant to `match_paths`). -/
def specWyrmPublic : AuthorizationSpecification :=
  { blockchain := "wyrm", authorization_type := .PUBLIC }

/-- A rule whose pattern repeats the same variable token. -/
def saDupVar : StorageAccess :=
  { storage_path := ["var/x", "var/x"], authorization := specWyrmPublic,
    access := .CREATE }

/-- A rule whose pattern ends in a variable component. -/
def saVarTail : StorageAccess :=
  { storage_path := ["bucket", "var/x"], authorization := specWyrmPublic,
    access := .CREATE }

/-- A two-component literal rule, longer than a one-component path. -/
def saLonger : StorageAccess :=
  { storage_path := ["bucket", "dir"], authorization := specWyrmPublic,
    access := .CREATE }

/-- The candidates `AccessManager.match` keeps: the rules whose
`match_paths` run returned a match, paired with their bindings. -/
def matchedCandidates (access_type : AccessType) (pcs : List String)
    (l : List StorageAccess) : List (StorageAccess × Bindings) :=
  l.filterMap (fun sa =>
    match match_paths access_type pcs sa with
    | .ok (true, bs) => some (sa, bs)
    | _ => none)

/-- The rule-length order used by the `load_access_list` sort. -/
def ruleLenLE (a b : StorageAccess) : Prop :=
  a.storage_path.length ≤ b.storage_path.length

/-- A healthy chain record as it would stand after a passing probe. -/
def chainA : Blockchain :=
  { http := "http://node", chain_id := 1, healthy_block_interval := 15,
    last_block_number := 1, last_block_timestamp := 1, healthy := true }

/-- A registry holding the single healthy chain `wyrm`. -/
def bcmA : BlockchainManager :=
  { blockchains := [("wyrm", chainA)], timers := [("wyrm", some 15)] }

/-- A PUBLIC rule on the one-component pattern `bucket`. -/
def saPub : StorageAccess :=
  { storage_path := ["bucket"], authorization := specWyrmPublic, access := .CREATE }

/-- A token client whose every query succeeds with a neutral answer. -/
def clientNull : TokenClient :=
  { erc20BalanceOf := fun _ _ _ => .ok 0,
    erc721OwnerOf := fun _ _ _ => .ok "0x0",
    erc1155BalanceOf := fun _ _ _ _ => .ok 0 }

/-- An ERC20 condition on chain `wyrm` requiring a balance of 5. -/
def specERC20 : AuthorizationSpecification :=
  { blockchain := "wyrm", authorization_type := .ERC20,
    contract_address := some "0x49ca1f6801c085abb165a827badfd6742a3f8dbc",
    minimum_balance := some 5 }

/-- An ERC20-gated rule on the one-component pattern `bucket`. -/
def saERC20 : StorageAccess :=
  { storage_path := ["bucket"], authorization := specERC20, access := .CREATE }

/-- A client answering every balance query with 5 tokens. -/
def clientBal5 : TokenClient :=
  { erc20BalanceOf := fun _ _ _ => .ok 5,
    erc721OwnerOf := fun _ _ _ => .ok "0x0",
    erc1155BalanceOf := fun _ _ _ _ => .ok 5 }

/-- A client answering every balance query with 4 tokens. -/
def clientBal4 : TokenClient :=
  { erc20BalanceOf := fun _ _ _ => .ok 4,
    erc721OwnerOf := fun _ _ _ => .ok "0x0",
    erc1155BalanceOf := fun _ _ _ _ => .ok 4 }

/-- An ERC721 condition on chain `wyrm` for token 42. -/
def spec721 : AuthorizationSpecification :=
  { blockchain := "wyrm", authorization_type := .ERC721,
    contract_address := some "0xDfbC5320704b417C5DBbd950738A32B8B5Ed75b3",
    token_id := some (.int 42) }

/-- An ERC721-gated rule on the one-component pattern `bucket`. -/
def sa721 : StorageAccess :=
  { storage_path := ["bucket"], authorization := spec721, access := .CREATE }

/-- A client whose owner-of query answers a fixed lowercase address. -/
def clientOwner : TokenClient :=
  { erc20BalanceOf := fun _ _ _ => .ok 0,
    erc721OwnerOf := fun _ _ _ => .ok "0xdfbc5320704b417c5dbbd950738a32b8b5ed75b3",
    erc1155BalanceOf := fun _ _ _ _ => .ok 0 }

/-- An ERC1155 condition on chain `wyrm` for token 1, minimum 2. -/
def spec1155 : AuthorizationSpecification :=
  { blockchain := "wyrm", authorization_type := .ERC1155,
    contract_address := some "0x49ca1f6801c085abb165a827badfd6742a3f8dbc",
    token_id := some (.int 1), minimum_balance := some 2 }

/-- An ERC1155-gated rule on the one-component pattern `bucket`. -/
def sa1155 : StorageAccess :=
  { storage_path := ["bucket"], authorization := spec1155, access := .CREATE }

/-- The chain `wyrm` in an unhealthy state. -/
def chainU : Blockchain :=
  { http := "http://node", chain_id := 1, healthy_block_interval := 15,
    last_block_number := 5, last_block_timestamp := 5, healthy := false }

/-- A registry holding only the unhealthy chain `wyrm`. -/
def bcmU : BlockchainManager :=
  { blockchains := [("wyrm", chainU)], timers := [("wyrm", some 15)] }

/-- A client answering every balance query with a huge balance, so the
ERC20 condition would be satisfied if it were ever consulted. -/
def clientRich : TokenClient :=
  { erc20BalanceOf := fun _ _ _ => .ok 1000000,
    erc721OwnerOf := fun _ _ _ => .ok "0x0",
    erc1155BalanceOf := fun _ _ _ _ => .ok 1000000 }

/-- A client whose every query fails with a transport error. -/
def clientErr : TokenClient :=
  { erc20BalanceOf := fun _ _ _ => .error "ConnectionError",
    erc721OwnerOf := fun _ _ _ => .error "ConnectionError",
    erc1155BalanceOf := fun _ _ _ _ => .error "ConnectionError" }

/-- A raw rule condition whose `contract_address` is a variable token. -/
def rawContractVar : RawSpec :=
  { blockchain := "wyrm", authorization_type := .ERC721,
    contract_address := some "var/contractAddress" }

/-- A raw rule condition whose `minimum_balance` is a variable token. -/
def rawBalanceVar : RawSpec :=
  { blockchain := "wyrm", authorization_type := .ERC20,
    minimum_balance := some (.inr "var/minBalance") }

/-- A raw ERC1155 condition carrying a variable `token_id`, an actual
contract address and an integer balance. -/
def rawTokenVar : RawSpec :=
  { blockchain := "wyrm", authorization_type := .ERC1155,
    contract_address := some "0x49ca1F6801c085ABB165a827baDFD6742a3f8DBc",
    token_id := some (.str "var/tokenId"),
    minimum_balance := some (.inl 1) }

/-- A raw condition whose `token_id` arrives as the JSON string `"1"`
(as in the repo's first loading test) with an integer balance. -/
def rawNumericToken : RawSpec :=
  { blockchain := "wyrm", authorization_type := .ERC1155,
    contract_address := some "0x49ca1f6801c085abb165a827badfd6742a3f8dbc",
    token_id := some (.str "1"),
    minimum_balance := some (.inl 1) }

/-- A chain definition with monitoring disabled (interval 0). -/
def exemptDef : BlockchainDefinition :=
  { http := "h", poa := false, chain_id := 1, healthy_block_interval := 0 }

/-- A registry built from the single exempt chain `c`. -/
def mgrExempt : BlockchainManager :=
  BlockchainManager.ofDefinitions [("c", exemptDef)]

/-- A probe environment whose fetch reports a non-advancing block. -/
def envStale : String → Bool × Except String (Int × Int) :=
  fun _ => (true, .ok (0, 0))

/-- Lookup after a replacing map: rewriting every entry keyed `k` to
`(k, v)` makes `k` resolve to `v` when any such entry exists and leaves
every other key's resolution unchanged. -/
theorem dictGet_cons_of_pos {p : String × String} {t : Bindings} {k' : String}
    (h : p.1 = k') : dictGet? (p :: t) k' = some p.2 := by
  unfold dictGet?
  rw [List.find?_cons_of_pos _ (by simpa using h)]
  rfl

theorem dictGet_cons_of_neg {p : String × String} {t : Bindings} {k' : String}
    (h : ¬p.1 = k') : dictGet? (p :: t) k' = dictGet? t k' := by
  unfold dictGet?
  rw [List.find?_cons_of_neg _ (by simpa using h)]

theorem dictGet_map_replace (d : Bindings) (k v k' : String) :
    dictGet? (d.map (fun p => if p.1 == k then (k, v) else p)) k' =
      if k' = k then (if d.any (fun p => p.1 == k) then some v else none)
      else dictGet? d k' := by
  induction d with
  | nil =>
    simp only [List.map_nil, List.any_nil, Bool.false_eq_true, if_false]
    by_cases hk : k' = k <;> simp [hk, dictGet?]
  | cons p t ih =>
    rw [List.map_cons, List.any_cons]
    by_cases hpk : p.1 = k
    · have hrepl : (if p.1 == k then (k, v) else p) = (k, v) := by simp [hpk]
      rw [hrepl]
      by_cases hk : k' = k
      · rw [dictGet_cons_of_pos (by simp [hk]), if_pos hk]
        simp [hpk]
      · rw [dictGet_cons_of_neg (fun h => hk (h.symm)), ih, if_neg hk,
          dictGet_cons_of_neg (fun h => hk ((hpk ▸ h).symm)), if_neg hk]
    · have hrepl : (if p.1 == k then (k, v) else p) = p := by simp [hpk]
      rw [hrepl]
      by_cases hpk' : p.1 = k'
      · have hk : ¬k' = k := fun h => hpk (h ▸ hpk')
        rw [dictGet_cons_of_pos hpk', if_neg hk, dictGet_cons_of_pos hpk']
      · rw [dictGet_cons_of_neg hpk', ih]
        have hpkb : (p.1 == k) = false := by simpa using hpk
        by_cases hk : k' = k
        · rw [if_pos hk, if_pos hk, hpkb, Bool.false_or]
        · rw [if_neg hk, if_neg hk, dictGet_cons_of_neg hpk']

/-- Lookup after Python's `d[k] = v` on bindings: the inserted key now
resolves to `v` and every other key resolves as before. -/
theorem dictGet_dictInsert (d : Bindings) (k v k' : String) :
    dictGet? (dictInsert d k v) k' =
      if k' = k then some v else dictGet? d k' := by
  unfold dictInsert
  by_cases hany : d.any (fun p => p.1 == k) = true
  · rw [if_pos hany, dictGet_map_replace, hany]
    by_cases hk : k' = k <;> simp [hk]
  · rw [if_neg hany]
    have hget : ∀ k₀, dictGet? d k₀ = dictGet? d k₀ := fun _ => rfl
    by_cases hk : k' = k
    · subst hk
      have hnone : d.find? (fun p => p.1 == k') = none := by
        rw [List.find?_eq_none]
        intro p hp hcontra
        exact hany (List.any_eq_true.mpr ⟨p, hp, hcontra⟩)
      unfold dictGet?
      rw [List.find?_append, hnone, if_pos rfl]
      simp [List.find?]
    · unfold dictGet?
      rw [List.find?_append, if_neg hk]
      cases hfind : d.find? (fun p => p.1 == k') with
      | none =>
        have hkk' : ((k, v).1 == k') = false := by
          simp
          exact fun h => hk h.symm
        simp [List.find?, hkk', Option.or]
      | some p => simp [Option.or]

theorem matchLoop_cons (C : List String) (comp : String) (rest : List String)
    (i : Nat) (bs : Bindings) :
    matchLoop C (comp :: rest) i bs =
      if pyStartsWith comp "var/" then
        match C[i]? with
        | none => .error "IndexError"
        | some v => matchLoop C rest (i + 1) (dictInsert bs comp v)
      else
        match C[i]? with
        | none => .error "IndexError"
        | some v =>
          if v ≠ comp then .ok (false, []) else matchLoop C rest (i + 1) bs := rfl

theorem literalsMatchSpec_cons (C : List String) (comp : String)
    (rest : List String) (i : Nat) :
    literalsMatchSpec C (comp :: rest) i =
      if pyStartsWith comp "var/" then literalsMatchSpec C rest (i + 1)
      else
        match C[i]? with
        | none => false
        | some c => c == comp && literalsMatchSpec C rest (i + 1) := rfl

theorem lastBindingSpec_cons (C : List String) (comp : String)
    (rest : List String) (i : Nat) (k : String) :
    lastBindingSpec C (comp :: rest) i k =
      match lastBindingSpec C rest (i + 1) k with
      | some v => some v
      | none =>
        if comp == k && pyStartsWith comp "var/" then C[i]? else none := rfl

/-- Characterization of the `match_paths` component loop on request
paths at least as long as the remaining pattern: it never raises, it
succeeds exactly when the remaining literal positions agree, and on
success a key resolves to its last overwrite (falling back to the
accumulated bindings). -/
theorem matchLoop_spec (C : List String) :
    ∀ (P : List String) (i : Nat) (bs : Bindings), i + P.length ≤ C.length →
    (literalsMatchSpec C P i = false → matchLoop C P i bs = .ok (false, [])) ∧
    (literalsMatchSpec C P i = true →
      ∃ bs', matchLoop C P i bs = .ok (true, bs') ∧
        ∀ k, dictGet? bs' k = (lastBindingSpec C P i k).or (dictGet? bs k)) := by
  intro P
  induction P with
  | nil =>
    intro i bs _
    constructor
    · intro h
      exact absurd h (by simp [literalsMatchSpec])
    · intro _
      exact ⟨bs, rfl, fun k => by simp [lastBindingSpec, Option.or]⟩
  | cons comp rest ih =>
    intro i bs hlen
    have hi : i < C.length := by
      simp only [List.length_cons] at hlen
      omega
    have hC : C[i]? = some C[i] := List.getElem?_eq_getElem hi
    have hlen' : (i + 1) + rest.length ≤ C.length := by
      simp only [List.length_cons] at hlen
      omega
    by_cases hvar : pyStartsWith comp "var/" = true
    · have hloop : matchLoop C (comp :: rest) i bs =
          matchLoop C rest (i + 1) (dictInsert bs comp C[i]) := by
        rw [matchLoop_cons, if_pos hvar, hC]
      have hlit : literalsMatchSpec C (comp :: rest) i =
          literalsMatchSpec C rest (i + 1) := by
        rw [literalsMatchSpec_cons, if_pos hvar]
      have hrec := ih (i + 1) (dictInsert bs comp C[i]) hlen'
      constructor
      · intro hfalse
        rw [hloop]
        exact hrec.1 (hlit ▸ hfalse)
      · intro htrue
        obtain ⟨bs', heq, hget⟩ := hrec.2 (hlit ▸ htrue)
        refine ⟨bs', by rw [hloop]; exact heq, ?_⟩
        intro k
        rw [hget k, dictGet_dictInsert, lastBindingSpec_cons]
        cases hrb : lastBindingSpec C rest (i + 1) k with
        | some v => simp [Option.or]
        | none =>
          simp only [Option.or]
          by_cases hk : k = comp
          · subst hk
            have hkk : (k == k) = true := by simp
            rw [if_pos rfl, hkk, Bool.true_and, if_pos hvar, hC]
          · have hck : (comp == k) = false := by
              simp
              exact fun h => hk h.symm
            rw [if_neg hk, hck, Bool.false_and, if_neg (by simp)]
    · have hvarf : pyStartsWith comp "var/" = false := by
        simpa using hvar
      have hlit : literalsMatchSpec C (comp :: rest) i =
          (C[i] == comp && literalsMatchSpec C rest (i + 1)) := by
        rw [literalsMatchSpec_cons, if_neg (by simp [hvarf]), hC]
      have hlast : ∀ k, lastBindingSpec C (comp :: rest) i k =
          lastBindingSpec C rest (i + 1) k := by
        intro k
        rw [lastBindingSpec_cons, hvarf, Bool.and_false, if_neg (by simp)]
        cases lastBindingSpec C rest (i + 1) k <;> rfl
      by_cases heqc : C[i] = comp
      · have hloop : matchLoop C (comp :: rest) i bs =
            matchLoop C rest (i + 1) bs := by
          rw [matchLoop_cons, if_neg (by simp [hvarf]), hC]
          simp [heqc]
        have hrec := ih (i + 1) bs hlen'
        constructor
        · intro hfalse
          rw [hloop]
          apply hrec.1
          rw [hlit] at hfalse
          simpa [heqc] using hfalse
        · intro htrue
          rw [hlit] at htrue
          obtain ⟨bs', heq, hget⟩ := hrec.2 (by simpa [heqc] using htrue)
          refine ⟨bs', by rw [hloop]; exact heq, ?_⟩
          intro k
          rw [hget k, hlast k]
      · have hloop : matchLoop C (comp :: rest) i bs = .ok (false, []) := by
          rw [matchLoop_cons, if_neg (by simp [hvarf]), hC]
          simp [heqc]
        constructor
        · intro _
          exact hloop
        · intro htrue
          rw [hlit] at htrue
          exact absurd htrue (by simp [heqc])

/-- C2 counterexample: the claim says each variable component at index
`i` binds to `path_components[i]`, but when the same `var/<name>` token
occurs twice the single dict entry holds the later component — here the
token at index 0 should bind to `"a"`, yet the returned binding is
`"b"`. -/
theorem match_paths_duplicate_var_counterexample :
    match_paths .CREATE ["a", "b"] saDupVar = .ok (true, [("var/x", "b")]) ∧
    dictGet? [("var/x", "b")] "var/x" = some "b" ∧ ("b" : String) ≠ "a" :=
  ⟨rfl, rfl, by decide⟩

/-- C2 (amended): for a pattern no longer than the request path and a
matching access type, `match_paths` never raises; it succeeds exactly
when every literal position agrees (extra trailing components ignored),
and on success the bindings are keyed by the full `var/<name>` token,
each key resolving to the request component at the token's last
occurrence (later occurrences overwrite earlier ones). -/
theorem match_paths_characterization (storage_access : StorageAccess)
    (access_type : AccessType) (C : List String)
    (hacc : storage_access.access = access_type)
    (hlen : storage_access.storage_path.length ≤ C.length) :
    (literalsMatchSpec C storage_access.storage_path 0 = false →
      match_paths access_type C storage_access = .ok (false, [])) ∧
    (literalsMatchSpec C storage_access.storage_path 0 = true →
      ∃ bs, match_paths access_type C storage_access = .ok (true, bs) ∧
        ∀ k, dictGet? bs k = lastBindingSpec C storage_access.storage_path 0 k) := by
  have hmp : match_paths access_type C storage_access =
      matchLoop C storage_access.storage_path 0 [] := by
    unfold match_paths
    rw [if_neg (by simp [hacc])]
  have h := matchLoop_spec C storage_access.storage_path 0 []
    (by simpa using hlen)
  constructor
  · intro hf
    rw [hmp]
    exact h.1 hf
  · intro ht
    obtain ⟨bs, heq, hget⟩ := h.2 ht
    refine ⟨bs, hmp ▸ heq, fun k => ?_⟩
    rw [hget k]
    cases lastBindingSpec C storage_access.storage_path 0 k <;>
      simp [dictGet?, Option.or]

/-- Witness for the amended C2 theorem at a concrete rule and path. -/
theorem match_paths_characterization_witness :
    ∃ bs, match_paths .CREATE ["bucket", "42", "extra"] saVarTail = .ok (true, bs) ∧
      ∀ k, dictGet? bs k =
        lastBindingSpec ["bucket", "42", "extra"] saVarTail.storage_path 0 k :=
  (match_paths_characterization saVarTail .CREATE ["bucket", "42", "extra"]
    rfl (by decide)).2 (by decide)

/-- C3: the claim says a shorter-than-pattern path is a non-match and
never an error, and the spec's intent ("never an error", and the
docstring's promise that a non-match returns `(False, {})`) is clear;
but the loop indexes `path_components[i]` without a length guard, so a
one-component path against a two-component pattern raises `IndexError`. -/
theorem match_paths_short_path_raises :
    match_paths .CREATE ["bucket"] saLonger = .error "IndexError" := rfl

theorem exceptIsOk_exists {ε α : Type} {e : Except ε α} (h : e.isOk = true) :
    ∃ a, e = .ok a := by
  cases e with
  | error _ => simp [Except.isOk, Except.toBool] at h
  | ok a => exact ⟨a, rfl⟩

theorem collectMatches_eq_of_ok (access_type : AccessType) (pcs : List String) :
    ∀ l : List StorageAccess,
    (∀ sa ∈ l, (match_paths access_type pcs sa).isOk = true) →
    collectMatches access_type pcs l = .ok (matchedCandidates access_type pcs l) := by
  intro l
  induction l with
  | nil => intro _; rfl
  | cons sa rest ih =>
    intro h
    obtain ⟨⟨b, bs⟩, heq⟩ := exceptIsOk_exists (h sa (by simp))
    have ht := ih (fun x hx => h x (by simp [hx]))
    show Except.bind (match_paths access_type pcs sa) _ = _
    rw [heq]
    show Except.bind (collectMatches access_type pcs rest) _ = _
    rw [ht]
    show Except.ok _ = _
    unfold matchedCandidates
    rw [List.filterMap_cons, heq]
    cases b <;> rfl

theorem matchedCandidates_mem {access_type : AccessType} {pcs : List String}
    {l : List StorageAccess} {p : StorageAccess × Bindings}
    (hp : p ∈ matchedCandidates access_type pcs l) :
    p.1 ∈ l ∧ match_paths access_type pcs p.1 = .ok (true, p.2) := by
  unfold matchedCandidates at hp
  obtain ⟨sa, hsa, hmap⟩ := List.mem_filterMap.mp hp
  cases hmp : match_paths access_type pcs sa with
  | error e => rw [hmp] at hmap; cases hmap
  | ok r =>
    obtain ⟨b, bs⟩ := r
    cases b with
    | false => rw [hmp] at hmap; cases hmap
    | true =>
      rw [hmp] at hmap
      cases hmap
      exact ⟨hsa, hmp⟩

theorem matchedCandidates_append (access_type : AccessType) (pcs : List String)
    (l1 l2 : List StorageAccess) (r : StorageAccess) (bsr : Bindings)
    (hr : match_paths access_type pcs r = .ok (true, bsr)) :
    matchedCandidates access_type pcs (l1 ++ r :: l2) =
      matchedCandidates access_type pcs l1 ++
        (r, bsr) :: matchedCandidates access_type pcs l2 := by
  unfold matchedCandidates
  rw [List.filterMap_append, List.filterMap_cons, hr]

theorem authorizationLoop_append_false (client : TokenClient)
    (bcm : BlockchainManager) (user_address : String) :
    ∀ (l1 rest : List (StorageAccess × Bindings)),
    (∀ p ∈ l1, ruleDecision client bcm user_address p.1 p.2 = .ok false) →
    authorizationLoop client bcm user_address (l1 ++ rest) =
      authorizationLoop client bcm user_address rest := by
  intro l1
  induction l1 with
  | nil => intro rest _; rfl
  | cons p t ih =>
    intro rest h
    obtain ⟨sa, bs⟩ := p
    show Except.bind (ruleDecision client bcm user_address sa bs) _ = _
    rw [h (sa, bs) (by simp)]
    exact ih rest (fun q hq => h q (by simp [hq]))

theorem authorizationLoop_all_false (client : TokenClient)
    (bcm : BlockchainManager) (user_address : String)
    (c : List (StorageAccess × Bindings))
    (h : ∀ p ∈ c, ruleDecision client bcm user_address p.1 p.2 = .ok false) :
    authorizationLoop client bcm user_address c = .ok none := by
  have := authorizationLoop_append_false client bcm user_address c [] h
  rwa [List.append_nil] at this

theorem load_access_list_sorted (raw : List StorageAccess) :
    (load_access_list raw).Pairwise ruleLenLE := by
  unfold load_access_list
  refine (List.sorted_mergeSort ?_ ?_ raw).imp ?_
  · intro a b c hab hbc
    simp only [decide_eq_true_eq] at *
    omega
  · intro a b
    simp only [Bool.or_eq_true, decide_eq_true_eq]
    omega
  · intro a b hab
    simpa [ruleLenLE] using hab

theorem load_access_list_stable (raw pre : List StorageAccess)
    (hsorted : pre.Pairwise ruleLenLE) (hsub : pre.Sublist raw) :
    pre.Sublist (load_access_list raw) := by
  unfold load_access_list
  refine List.sublist_mergeSort ?_ ?_ ?_ hsub
  · intro a b c hab hbc
    simp only [decide_eq_true_eq] at *
    omega
  · intro a b
    simp only [Bool.or_eq_true, decide_eq_true_eq]
    omega
  · exact hsorted.imp (fun hab => by simpa [ruleLenLE] using hab)

/-- C1: stored order is ascending by pattern component count with
original file order kept on ties (the loaded list is length-sorted, and
any length-sorted selection of the input survives in its original
relative order), and `authorization` returns the first rule in that
stored order whose access type and pattern match and whose condition
grants — nothing after the granting rule is consulted, as the tail
`l2` and the client's behaviour on it are arbitrary. -/
theorem authorization_first_grant (client : TokenClient) (bcm : BlockchainManager)
    (raw : List StorageAccess) (user_address : String) (access_type : AccessType)
    (path : String) (l1 l2 : List StorageAccess) (r : StorageAccess) (bsr : Bindings)
    (hsplit : load_access_list raw = l1 ++ r :: l2)
    (hok : ∀ sa ∈ load_access_list raw,
      (match_paths access_type (pySplitSlash path) sa).isOk = true)
    (hr : match_paths access_type (pySplitSlash path) r = .ok (true, bsr))
    (hgrant : ruleDecision client bcm user_address r bsr = .ok true)
    (hprev : ∀ sa bs, sa ∈ l1 →
      match_paths access_type (pySplitSlash path) sa = .ok (true, bs) →
      ruleDecision client bcm user_address sa bs = .ok false) :
    (load_access_list raw).Pairwise ruleLenLE ∧
    (∀ pre : List StorageAccess, pre.Pairwise ruleLenLE →
      pre.Sublist raw → pre.Sublist (load_access_list raw)) ∧
    (AccessManager.mk (load_access_list raw) bcm).authorization client
      user_address access_type path = .ok (some r) := by
  refine ⟨load_access_list_sorted raw,
    fun pre hs hsub => load_access_list_stable raw pre hs hsub, ?_⟩
  show Except.bind (collectMatches access_type (pySplitSlash path)
    (load_access_list raw)) _ = _
  rw [collectMatches_eq_of_ok access_type (pySplitSlash path)
    (load_access_list raw) hok, hsplit,
    matchedCandidates_append access_type (pySplitSlash path) l1 l2 r bsr hr]
  show authorizationLoop client bcm user_address _ = _
  rw [authorizationLoop_append_false client bcm user_address _ _
    (fun p hp => by
      obtain ⟨hmem, hmp⟩ := matchedCandidates_mem hp
      exact hprev p.1 p.2 hmem hmp)]
  show Except.bind (ruleDecision client bcm user_address r bsr) _ = _
  rw [hgrant]
  rfl

/-- Witness for C1 at a one-rule access list. -/
theorem authorization_first_grant_witness :
    (AccessManager.mk (load_access_list [saPub]) bcmA).authorization clientNull
      "0xabc" .CREATE "bucket" = .ok (some saPub) := by
  have hload : load_access_list [saPub] = [saPub] :=
    List.mergeSort_of_sorted (by simp)
  exact (authorization_first_grant clientNull bcmA [saPub] "0xabc" .CREATE
    "bucket" [] [] saPub []
    (by rw [hload]; rfl)
    (by rw [hload]; decide)
    rfl
    rfl
    (fun sa bs hmem _ => absurd hmem (List.not_mem_nil sa))).2.2

/-- C4: on a matched non-PUBLIC rule whose chain resolves and is
healthy, the grant decision dispatches on the token kind: ERC20 grants
iff balance-of(user) reaches `minimum_balance` (no token-id appears in
the query, and the decision denies at `minimum_balance - 1` and grants
at `minimum_balance`); ERC721 grants iff owner-of(token-id) equals the
checksum-normalized user address (`minimum_balance` plays no part);
ERC1155 grants iff balance-of(user, token-id) reaches
`minimum_balance`. -/
theorem ruleDecision_token_dispatch (client : TokenClient) (bcm : BlockchainManager)
    (user_address : String) (storage_access : StorageAccess) (bs : Bindings)
    (chain : Blockchain)
    (hch : bcm.get storage_access.authorization.blockchain = some chain)
    (hh : chain.healthy = true) :
    (∀ m balance, storage_access.authorization.authorization_type = .ERC20 →
      storage_access.authorization.minimum_balance = some m →
      client.erc20BalanceOf chain
        (substituteContractAddress bs storage_access.authorization) user_address =
          .ok balance →
      ruleDecision client bcm user_address storage_access bs =
        .ok (decide (m ≤ balance))) ∧
    (∀ owner checksum_user,
      storage_access.authorization.authorization_type = .ERC721 →
      client.erc721OwnerOf chain
        (substituteContractAddress bs storage_access.authorization)
        (substituteTokenId bs storage_access.authorization) = .ok owner →
      toChecksumAddress user_address = .ok checksum_user →
      ruleDecision client bcm user_address storage_access bs =
        .ok (decide (owner = checksum_user))) ∧
    (∀ m balance, storage_access.authorization.authorization_type = .ERC1155 →
      storage_access.authorization.minimum_balance = some m →
      client.erc1155BalanceOf chain
        (substituteContractAddress bs storage_access.authorization) user_address
        (substituteTokenId bs storage_access.authorization) = .ok balance →
      ruleDecision client bcm user_address storage_access bs =
        .ok (decide (m ≤ balance))) ∧
    (∀ m, storage_access.authorization.authorization_type = .ERC20 →
      storage_access.authorization.minimum_balance = some m →
      client.erc20BalanceOf chain
        (substituteContractAddress bs storage_access.authorization) user_address =
          .ok (m - 1) →
      ruleDecision client bcm user_address storage_access bs = .ok false) ∧
    (∀ m, storage_access.authorization.authorization_type = .ERC20 →
      storage_access.authorization.minimum_balance = some m →
      client.erc20BalanceOf chain
        (substituteContractAddress bs storage_access.authorization) user_address =
          .ok m →
      ruleDecision client bcm user_address storage_access bs = .ok true) := by
  have h20 : ∀ m balance, storage_access.authorization.authorization_type = .ERC20 →
      storage_access.authorization.minimum_balance = some m →
      client.erc20BalanceOf chain
        (substituteContractAddress bs storage_access.authorization) user_address =
          .ok balance →
      ruleDecision client bcm user_address storage_access bs =
        .ok (decide (m ≤ balance)) := by
    intro m balance htype hmb hq
    unfold ruleDecision
    rw [htype, if_neg (by simp), hch]
    dsimp only
    rw [hh]
    simp only [Bool.not_true, Bool.false_eq_true, if_false]
    rw [hq]
    dsimp only
    rw [hmb]
  refine ⟨h20, ?_, ?_, ?_, ?_⟩
  · intro owner checksum_user htype hq hcs
    unfold ruleDecision
    rw [htype, if_neg (by simp), hch]
    dsimp only
    rw [hh]
    simp only [Bool.not_true, Bool.false_eq_true, if_false]
    rw [hq]
    dsimp only
    rw [hcs]
  · intro m balance htype hmb hq
    unfold ruleDecision
    rw [htype, if_neg (by simp), hch]
    dsimp only
    rw [hh]
    simp only [Bool.not_true, Bool.false_eq_true, if_false]
    rw [hq]
    dsimp only
    rw [hmb]
  · intro m htype hmb hq
    have h := h20 m (m - 1) htype hmb hq
    rwa [decide_eq_false (by omega)] at h
  · intro m htype hmb hq
    have h := h20 m m htype hmb hq
    rwa [decide_eq_true (by omega)] at h

/-- Witness for C4: the ERC20 rule grants at balance 5 and denies at
balance 4 against the minimum of 5; the ERC721 rule grants to the
differently-cased owner address; the ERC1155 rule grants at balance 5
against its minimum of 2. -/
theorem ruleDecision_token_dispatch_witness :
    ruleDecision clientBal5 bcmA "0xabc" saERC20 [] = .ok true ∧
    ruleDecision clientBal4 bcmA "0xabc" saERC20 [] = .ok false ∧
    ruleDecision clientOwner bcmA
      "0xDfbC5320704b417C5DBbd950738A32B8B5Ed75b3" sa721 [] = .ok true ∧
    ruleDecision clientBal5 bcmA "0xabc" sa1155 [] = .ok true := by
  refine ⟨?_, ?_, ?_, ?_⟩
  · exact (ruleDecision_token_dispatch clientBal5 bcmA "0xabc" saERC20 [] chainA
      rfl rfl).2.2.2.2 5 rfl rfl rfl
  · exact (ruleDecision_token_dispatch clientBal4 bcmA "0xabc" saERC20 [] chainA
      rfl rfl).2.2.2.1 5 rfl rfl rfl
  · have h := (ruleDecision_token_dispatch clientOwner bcmA
      "0xDfbC5320704b417C5DBbd950738A32B8B5Ed75b3" sa721 [] chainA rfl rfl).2.1
      "0xdfbc5320704b417c5dbbd950738a32b8b5ed75b3"
      "0xdfbc5320704b417c5dbbd950738a32b8b5ed75b3" rfl rfl rfl
    simpa using h
  · have h := (ruleDecision_token_dispatch clientBal5 bcmA "0xabc" sa1155 [] chainA
      rfl rfl).2.2.1 2 5 rfl rfl rfl
    simpa using h

/-- C5: a matched non-PUBLIC rule whose chain is missing from the
registry or unhealthy is a non-grant for every possible client (so it
never grants even when the token condition would hold), and the
candidate loop continues with the remaining candidates rather than
denying the whole request. -/
theorem unhealthy_chain_skipped (client : TokenClient) (bcm : BlockchainManager)
    (user_address : String) (storage_access : StorageAccess) (bs : Bindings)
    (rest : List (StorageAccess × Bindings))
    (hnp : storage_access.authorization.authorization_type ≠ .PUBLIC)
    (hch : bcm.get storage_access.authorization.blockchain = none ∨
      ∃ chain, bcm.get storage_access.authorization.blockchain = some chain ∧
        chain.healthy = false) :
    ruleDecision client bcm user_address storage_access bs = .ok false ∧
    authorizationLoop client bcm user_address ((storage_access, bs) :: rest) =
      authorizationLoop client bcm user_address rest := by
  have hdec : ruleDecision client bcm user_address storage_access bs = .ok false := by
    unfold ruleDecision
    rw [if_neg hnp]
    rcases hch with hnone | ⟨chain, hsome, hunhealthy⟩
    · rw [hnone]
    · rw [hsome]
      dsimp only
      rw [hunhealthy]
      rfl
  refine ⟨hdec, ?_⟩
  show Except.bind (ruleDecision client bcm user_address storage_access bs) _ = _
  rw [hdec]
  rfl

/-- Witness for C5: the satisfied ERC20 rule on the unhealthy `wyrm`
chain is skipped. -/
theorem unhealthy_chain_skipped_witness :
    ruleDecision clientRich bcmU "0xabc" saERC20 [] = .ok false ∧
    authorizationLoop clientRich bcmU "0xabc" [(saERC20, [])] =
      authorizationLoop clientRich bcmU "0xabc" [] :=
  unhealthy_chain_skipped clientRich bcmU "0xabc" saERC20 [] []
    (by decide) (Or.inr ⟨chainU, rfl, rfl⟩)

/-- C6 counterexample: the claim says a transport failure during a
token query is contained as skip-and-continue and that `authorization`
never raises; but the loop has no handler, so a failing ERC20 query on
a healthy chain propagates the transport error to the caller instead
of skipping to the next candidate or returning `none`. -/
theorem authorization_transport_failure_counterexample :
    (AccessManager.mk [saERC20] bcmA).authorization clientErr "0xabc" .CREATE
      "bucket" = .error "ConnectionError" := rfl

/-- C6 (amended): a transport failure during a token query is not
contained — the first failing candidate's error propagates out of
`authorization` — while a run in which every matched candidate's
decision completes without granting returns `none`. -/
theorem authorization_transport_amended (client : TokenClient)
    (bcm : BlockchainManager) (rules : List StorageAccess)
    (user_address : String) (access_type : AccessType) (path : String) :
    (∀ l1 sa bs l2 e,
      collectMatches access_type (pySplitSlash path) rules =
        .ok (l1 ++ (sa, bs) :: l2) →
      (∀ p ∈ l1, ruleDecision client bcm user_address p.1 p.2 = .ok false) →
      ruleDecision client bcm user_address sa bs = .error e →
      (AccessManager.mk rules bcm).authorization client user_address access_type
        path = .error e) ∧
    (∀ cands,
      collectMatches access_type (pySplitSlash path) rules = .ok cands →
      (∀ p ∈ cands, ruleDecision client bcm user_address p.1 p.2 = .ok false) →
      (AccessManager.mk rules bcm).authorization client user_address access_type
        path = .ok none) := by
  constructor
  · intro l1 sa bs l2 e hc hprev herr
    show Except.bind (collectMatches access_type (pySplitSlash path) rules) _ = _
    rw [hc]
    show authorizationLoop client bcm user_address _ = _
    rw [authorizationLoop_append_false client bcm user_address l1 _ hprev]
    show Except.bind (ruleDecision client bcm user_address sa bs) _ = _
    rw [herr]
    rfl
  · intro cands hc hnone
    show Except.bind (collectMatches access_type (pySplitSlash path) rules) _ = _
    rw [hc]
    exact authorizationLoop_all_false client bcm user_address cands hnone

/-- Witness for the amended C6 theorem: with the failing client the
error surfaces; with a low-balance client the same rule declines and
the request ends in `none`. -/
theorem authorization_transport_amended_witness :
    (AccessManager.mk [saERC20] bcmA).authorization clientErr "0xabc" .CREATE
      "bucket" = .error "ConnectionError" ∧
    (AccessManager.mk [saERC20] bcmA).authorization clientBal4 "0xabc" .CREATE
      "bucket" = .ok none := by
  constructor
  · exact (authorization_transport_amended clientErr bcmA [saERC20] "0xabc"
      .CREATE "bucket").1 [] saERC20 [] [] "ConnectionError" rfl
      (fun p hp => absurd hp (List.not_mem_nil p)) rfl
  · exact (authorization_transport_amended clientBal4 bcmA [saERC20] "0xabc"
      .CREATE "bucket").2 [(saERC20, [])] rfl
      (fun p hp => by rw [List.mem_singleton.mp hp]; rfl)

/-- C7 counterexample: the claim says each of `contract_address`,
`token_id` and `minimum_balance` may equal a bound variable name and
such a rule loads successfully; but the checksum validator rejects a
`var/...` string in `contract_address`, and pydantic's `int` coercion
rejects one in `minimum_balance`, so both rules fail at load. -/
theorem variable_fields_load_counterexample :
    validateSpec rawContractVar =
      .error "contract_address could not be converted to checksum address" ∧
    validateSpec rawBalanceVar = .error "value is not a valid integer" :=
  ⟨rfl, rfl⟩

/-- A string beginning with `var/` is never int-parsable: Python's
`int()` rejects it, since `v` is neither a sign nor a digit. -/
theorem pyInt_var_none (s : String) (h : pyStartsWith s "var/" = true) :
    pyInt? s = none := by
  unfold pyStartsWith at h
  obtain ⟨t, ht⟩ := List.isPrefixOf_iff_prefix.mp h
  have hd : s.data = 'v' :: 'a' :: 'r' :: '/' :: t := by
    rw [← ht]
    rfl
  unfold pyInt?
  rw [hd]
  rfl

/-- C7 (amended): only `token_id` may carry a bound variable name — the
`Union[int, str]` coercion turns an int-parsable `token_id` string into
an integer but a non-parsable string such as a `var/...` token loads
untouched, and it is substituted at match time with the bound value —
while `contract_address` and `minimum_balance` never survive loading
with a variable name (and the `minimum_balance` substitution lookup,
keyed by an integer against string keys, never fires). -/
theorem variable_substitution_amended :
    (∀ (bs : Bindings) (spec : AuthorizationSpecification) (s v : String),
      spec.token_id = some (.str s) → dictGet? bs s = some v →
      substituteTokenId bs spec = some (.str v)) ∧
    (∀ (raw : RawSpec) (c c' : String) (n : Int),
      raw.contract_address = some c → toChecksumAddress c = .ok c' →
      raw.minimum_balance = some (.inl n) →
      validateSpec raw =
        .ok { blockchain := raw.blockchain,
              authorization_type := raw.authorization_type,
              contract_address := some c',
              token_id := raw.token_id.map coerceTokenId,
              minimum_balance := some n }) ∧
    (∀ s : String, pyStartsWith s "var/" = true →
      coerceTokenId (.str s) = .str s) := by
  refine ⟨?_, ?_, ?_⟩
  · intro bs spec s v hts hget
    unfold substituteTokenId
    rw [hts]
    dsimp only
    rw [hget]
  · intro raw c c' n hca hcs hmb
    unfold validateSpec
    rw [hca]
    dsimp only
    rw [hcs]
    dsimp only
    unfold validateSpecBalance
    rw [hmb]
    rfl
  · intro s hs
    unfold coerceTokenId
    dsimp only
    rw [pyInt_var_none s hs]

/-- Witness for the amended C7 theorem: the variable `token_id` is
substituted from the bindings; the `var/tokenId` rule loads with its
token kept a string (the coercion leaving it untouched), its contract
address checksummed and its balance coerced; and the repo test's
numeric-string rule loads with `token_id` coerced to the integer 1. -/
theorem variable_substitution_amended_witness :
    substituteTokenId [("var/tokenId", "42")]
      { blockchain := "wyrm", authorization_type := .ERC1155,
        contract_address := some "0x49ca1f6801c085abb165a827badfd6742a3f8dbc",
        token_id := some (.str "var/tokenId"), minimum_balance := some 1 } =
      some (.str "42") ∧
    validateSpec rawTokenVar =
      .ok { blockchain := "wyrm",
            authorization_type := .ERC1155,
            contract_address := some "0x49ca1f6801c085abb165a827badfd6742a3f8dbc",
            token_id := some (.str "var/tokenId"), minimum_balance := some 1 } ∧
    coerceTokenId (.str "var/tokenId") = .str "var/tokenId" ∧
    validateSpec rawNumericToken =
      .ok { blockchain := "wyrm",
            authorization_type := .ERC1155,
            contract_address := some "0x49ca1f6801c085abb165a827badfd6742a3f8dbc",
            token_id := some (.int 1), minimum_balance := some 1 } := by
  refine ⟨?_, ?_, ?_, ?_⟩
  · exact (variable_substitution_amended).1 [("var/tokenId", "42")] _
      "var/tokenId" "42" rfl rfl
  · exact (variable_substitution_amended).2.1 rawTokenVar
      "0x49ca1F6801c085ABB165a827baDFD6742a3f8DBc"
      "0x49ca1f6801c085abb165a827badfd6742a3f8dbc" 1 rfl rfl rfl
  · exact (variable_substitution_amended).2.2 "var/tokenId" rfl
  · exact (variable_substitution_amended).2.1 rawNumericToken
      "0x49ca1f6801c085abb165a827badfd6742a3f8dbc"
      "0x49ca1f6801c085abb165a827badfd6742a3f8dbc" 1 rfl rfl rfl

/-- C8: a probe that acquires the lock and fetches a block sets
`healthy` exactly when both the height and the timestamp strictly
increased, and always advances the last-seen fields to the observed
values regardless of the outcome; a probe that cannot acquire the lock
sets `healthy := false` and leaves the last-seen fields untouched. -/
theorem apply_healthcheck_spec :
    (∀ (b : Blockchain) (n t : Int),
      apply_healthcheck true (.ok (n, t)) b =
        { chain := { b with
                     healthy := decide (b.last_block_number < n ∧
                       b.last_block_timestamp < t),
                     last_block_number := n,
                     last_block_timestamp := t },
          lockHeldOnExit := false, exc := none }) ∧
    (∀ (b : Blockchain) (fetch : Except String (Int × Int)),
      apply_healthcheck false fetch b =
        { chain := { b with healthy := false },
          lockHeldOnExit := false, exc := none }) := by
  constructor
  · intro b n t
    unfold apply_healthcheck
    dsimp only
    simp only [Bool.not_true, Bool.false_eq_true, if_false]
    by_cases h : n ≤ b.last_block_number ∨ t ≤ b.last_block_timestamp
    · rw [if_pos h,
        decide_eq_false (show ¬(b.last_block_number < n ∧
          b.last_block_timestamp < t) by omega)]
    · rw [if_neg h,
        decide_eq_true (show b.last_block_number < n ∧
          b.last_block_timestamp < t by omega)]
  · intro b fetch
    rfl

/-- C9 counterexample: the claim says an RPC failure is contained in
the probe and treated as `healthy := false`; but on a fetch error the
probe re-raises (the exception field is set) and the previously healthy
chain keeps `healthy = true` — only the lock release actually happens. -/
theorem apply_healthcheck_rpc_failure_counterexample :
    (apply_healthcheck true (.error "ConnectionError") chainA).exc =
      some "ConnectionError" ∧
    (apply_healthcheck true (.error "ConnectionError") chainA).chain.healthy =
      true ∧
    (apply_healthcheck true (.error "ConnectionError") chainA).lockHeldOnExit =
      false :=
  ⟨rfl, rfl, rfl⟩

/-- C9 (amended): the probe never holds the lock when it returns, on
any path; an RPC failure propagates to the probe's caller with the
chain state — including `healthy` — left exactly as it was. -/
theorem apply_healthcheck_lock_release_amended (acquired : Bool)
    (fetch : Except String (Int × Int)) (b : Blockchain) :
    (apply_healthcheck acquired fetch b).lockHeldOnExit = false ∧
    (∀ e, acquired = true → fetch = .error e →
      apply_healthcheck acquired fetch b =
        { chain := b, lockHeldOnExit := false, exc := some e }) := by
  constructor
  · cases acquired with
    | false => rfl
    | true =>
      cases fetch with
      | error e => rfl
      | ok p => rfl
  · intro e ha hf
    subst ha
    subst hf
    rfl

/-- Witness for the amended C9 theorem at a concrete failing probe. -/
theorem apply_healthcheck_lock_release_amended_witness :
    (apply_healthcheck true (.error "timeout") chainU).lockHeldOnExit = false ∧
    apply_healthcheck true (.error "timeout") chainU =
      { chain := chainU, lockHeldOnExit := false, exc := some "timeout" } :=
  ⟨(apply_healthcheck_lock_release_amended true (.error "timeout") chainU).1,
    (apply_healthcheck_lock_release_amended true (.error "timeout") chainU).2
      "timeout" rfl rfl⟩

theorem ofDefinitions_blockchains_find (name : String) :
    ∀ defs : List (String × BlockchainDefinition),
    (BlockchainManager.ofDefinitions defs).blockchains.find?
        (fun p => p.1 == name) =
      (defs.find? (fun p => p.1 == name)).map
        (fun p => (p.1, initBlockchain p.2)) := by
  intro defs
  induction defs with
  | nil => rfl
  | cons p t ih =>
    show ((p.1, initBlockchain p.2) ::
      t.map (fun p => (p.1, initBlockchain p.2))).find? _ = _
    cases h : (p.1 == name) with
    | true =>
      simp only [List.find?, h]
      rfl
    | false =>
      simp only [List.find?, h]
      exact ih

theorem ofDefinitions_timers_find (name : String) :
    ∀ defs : List (String × BlockchainDefinition),
    (BlockchainManager.ofDefinitions defs).timers.find?
        (fun q => q.1 == name) =
      (defs.find? (fun p => p.1 == name)).map
        (fun p => (p.1, if p.2.healthy_block_interval ≤ 0 then none
          else some p.2.healthy_block_interval)) := by
  intro defs
  induction defs with
  | nil => rfl
  | cons p t ih =>
    show ((p.1, if p.2.healthy_block_interval ≤ 0 then none
      else some p.2.healthy_block_interval) ::
        t.map (fun p => (p.1, if p.2.healthy_block_interval ≤ 0 then none
          else some p.2.healthy_block_interval))).find? _ = _
    cases h : (p.1 == name) with
    | true =>
      simp only [List.find?, h]
      rfl
    | false =>
      simp only [List.find?, h]
      exact ih

theorem stopMark_fst (timers : List (String × Option ℚ))
    (p : String × Blockchain) : (stopMark timers p).1 = p.1 := by
  unfold stopMark
  cases (timers.find? (fun q => q.1 == p.1)).map (fun q => q.2) with
  | none => rfl
  | some o =>
    cases o with
    | none => rfl
    | some _ => rfl

theorem stopMark_of_no_timer (timers : List (String × Option ℚ))
    (p : String × Blockchain)
    (h : (timers.find? (fun q => q.1 == p.1)).map (fun q => q.2) = some none) :
    stopMark timers p = p := by
  unfold stopMark
  rw [h]

theorem find_stop_map (timers : List (String × Option ℚ)) (name : String)
    (ht : (timers.find? (fun q => q.1 == name)).map (fun q => q.2) = some none) :
    ∀ bl : List (String × Blockchain),
    ((bl.map (stopMark timers)).find? (fun p => p.1 == name)).map
        (fun p => p.2) =
      (bl.find? (fun p => p.1 == name)).map (fun p => p.2) := by
  intro bl
  induction bl with
  | nil => rfl
  | cons p t ih =>
    rw [List.map_cons]
    have hfst : ((stopMark timers p).1 == name) = (p.1 == name) := by
      rw [stopMark_fst]
    cases h : (p.1 == name) with
    | true =>
      have hp1 : p.1 = name := by simpa using h
      have hmark : stopMark timers p = p :=
        stopMark_of_no_timer timers p (by rw [hp1]; exact ht)
      simp only [List.find?, hmark, h]
    | false =>
      simp only [List.find?, hfst, h]
      exact ih

theorem stop_healthchecks_get_of_no_timer (manager : BlockchainManager)
    (name : String)
    (ht : (manager.timers.find? (fun q => q.1 == name)).map (fun q => q.2) =
      some none) :
    (stop_healthchecks manager).get name = manager.get name :=
  find_stop_map manager.timers name ht manager.blockchains

theorem startProbe_lookup (env : String → Bool × Except String (Int × Int))
    (name : String) :
    ∀ (bl bl' : List (String × Blockchain)), startProbe env bl = .ok bl' →
    (bl'.find? (fun p => p.1 == name)).map (fun p => p.2) =
      (bl.find? (fun p => p.1 == name)).map
        (fun p => (apply_healthcheck (env p.1).1 (env p.1).2 p.2).chain) := by
  intro bl
  induction bl with
  | nil =>
    intro bl' h
    cases h
    rfl
  | cons p t ih =>
    intro bl' h
    obtain ⟨n, b⟩ := p
    unfold startProbe at h
    cases hexc : (apply_healthcheck (env n).1 (env n).2 b).exc with
    | some e => rw [hexc] at h; cases h
    | none =>
      rw [hexc] at h
      cases hrec : startProbe env t with
      | error e =>
        rw [hrec] at h
        cases h
      | ok t' =>
        rw [hrec] at h
        cases h
        cases hn : (n == name) with
        | true =>
          simp only [List.find?, hn]
          rfl
        | false =>
          simp only [List.find?, hn]
          exact ih t' hrec

/-- C10 counterexample: the claim says an exempt chain
(`health_check_interval ≤ 0`) is never probed, including during
`start()`, and stays healthy; but `start_healthchecks` probes every
chain, and the initial probe of the exempt chain `c` observes a
non-advancing block and flips its healthy flag to `false`. -/
theorem exempt_chain_probed_counterexample :
    (mgrExempt.get "c").map (fun b => b.healthy) = some true ∧
    ∃ m₂, start_healthchecks envStale mgrExempt = .ok m₂ ∧
      (m₂.get "c").map (fun b => b.healthy) = some false :=
  ⟨rfl, ⟨_, rfl, rfl⟩⟩

/-- C10 (amended): an exempt chain gets no repeating timer (so it is
never probed periodically), starts healthy, and `stop_healthchecks`
leaves it untouched; but `start_healthchecks` does probe it exactly
once, synchronously, through `apply_healthcheck` — so its healthy flag
is not permanently true. -/
theorem exempt_chain_amended (defs : List (String × BlockchainDefinition))
    (name : String) (d : BlockchainDefinition)
    (env : String → Bool × Except String (Int × Int))
    (manager' : BlockchainManager)
    (hd : (defs.find? (fun p => p.1 == name)).map (fun p => p.2) = some d)
    (hle : d.healthy_block_interval ≤ 0) :
    ((BlockchainManager.ofDefinitions defs).timers.find?
        (fun q => q.1 == name)).map (fun q => q.2) = some none ∧
    (BlockchainManager.ofDefinitions defs).get name =
      some (initBlockchain d) ∧
    (initBlockchain d).healthy = true ∧
    ((manager'.timers.find? (fun q => q.1 == name)).map (fun q => q.2) =
        some none →
      (stop_healthchecks manager').get name = manager'.get name) ∧
    (∀ m₂, start_healthchecks env (BlockchainManager.ofDefinitions defs) =
        .ok m₂ →
      m₂.get name =
        some (apply_healthcheck (env name).1 (env name).2
          (initBlockchain d)).chain) := by
  obtain ⟨p, hp, hpd⟩ := Option.map_eq_some'.mp hd
  have hpname : p.1 = name := by simpa using List.find?_some hp
  refine ⟨?_, ?_, ?_, ?_, ?_⟩
  · rw [ofDefinitions_timers_find, hp]
    simp only [Option.map_some']
    rw [hpd, if_pos hle]
  · unfold BlockchainManager.get
    rw [ofDefinitions_blockchains_find, hp]
    simp only [Option.map_some']
    rw [hpd]
  · unfold initBlockchain
    exact decide_eq_true hle
  · intro ht
    exact stop_healthchecks_get_of_no_timer manager' name ht
  · intro m₂ hstart
    unfold start_healthchecks at hstart
    cases hsp : startProbe env
        (BlockchainManager.ofDefinitions defs).blockchains with
    | error e =>
      rw [hsp] at hstart
      cases hstart
    | ok bl' =>
      rw [hsp] at hstart
      cases hstart
      show (bl'.find? (fun p => p.1 == name)).map (fun p => p.2) = _
      rw [startProbe_lookup env name _ bl' hsp,
        ofDefinitions_blockchains_find, hp]
      simp only [Option.map_some']
      rw [hpname, hpd]

/-- Witness for the amended C10 theorem at the concrete exempt chain. -/
theorem exempt_chain_amended_witness :
    (mgrExempt.timers.find? (fun q => q.1 == "c")).map (fun q => q.2) =
      some none ∧
    mgrExempt.get "c" = some (initBlockchain exemptDef) ∧
    (initBlockchain exemptDef).healthy = true ∧
    ((mgrExempt.timers.find? (fun q => q.1 == "c")).map (fun q => q.2) =
        some none →
      (stop_healthchecks mgrExempt).get "c" = mgrExempt.get "c") ∧
    (∀ m₂, start_healthchecks envStale mgrExempt = .ok m₂ →
      m₂.get "c" =
        some (apply_healthcheck (envStale "c").1 (envStale "c").2
          (initBlockchain exemptDef)).chain) :=
  exempt_chain_amended [("c", exemptDef)] "c" exemptDef envStale mgrExempt
    rfl (by decide)

end Blobs3
